import Mathlib

/-!
Verification of the lease-based distributed mutex of `arangodb-types`
(`src/arangodb-types/src/utilities/db_mutex/mod.rs`).

The store (ArangoDB) and the documents are embedded shallowly:
keys, node ids, uuids (`DBUuid`) and datetimes (`DBDateTime`) are modelled
as natural numbers, a collection is a partial map from keys to documents,
and each AQL query built by the mutex code is modelled per key following
the pipeline written in the source comments
(FOR i IN keys; LET o = DOCUMENT(c, i); FILTER ...; UPDATE ... ; RETURN ...).
-/

set_option maxHeartbeats 1000000

/-- Modelled from the spec: the tri-state lease field of a record
(`types/nullable_option.rs` is not part of the sources at hand; the spec
describes it as Missing = never locked / Null = explicitly unlocked /
Value = holding the owner-expiration-token triple). -/
inductive NullableOption (α : Type) where
  | Missing : NullableOption α
  | Null : NullableOption α
  | Value (v : α) : NullableOption α
deriving DecidableEq

/-- `DBMutex` from `types/mutex.rs`: the lease triple stored on a document.
Node ids (ArcStr) and change flags (DBUuid) are numbers, the expiration
(DBDateTime) is a natural-number timestamp. -/
structure DBMutex where
  node : Nat
  change_flag : Nat
  expiration : Nat
deriving DecidableEq

/-- A synchronized document: its key, its mutex field and an opaque payload
standing for all the other fields. -/
structure Document where
  db_key : Option Nat
  db_mutex : NullableOption DBMutex
  payload : Nat
deriving DecidableEq

/-- The collection: a partial map from keys to documents. -/
def Store : Type := Nat → Option Document

/-- Writing one document at its key, the per-document atomic update. -/
def updateStore (s : Store) (k : Nat) (d : Document) : Store :=
  fun q => if q = k then some d else s q

/-- `MUTEX_ALIVE_INTERVAL` from `constants.rs` (non-test value, seconds). -/
def MUTEX_ALIVE_INTERVAL : Nat := 2 * 60

/-- `MUTEX_EXPIRATION` from `constants.rs`: alive interval plus 10 seconds. -/
def MUTEX_EXPIRATION : Nat := MUTEX_ALIVE_INTERVAL + 10

/-- The acquire filter `o.mutex.E <= now` of `acquire_list`: in AQL a
missing attribute reads as null and null compares below every timestamp,
so a Missing or Null lease field passes the filter. -/
def leaseExpired (l : NullableOption DBMutex) (now : Nat) : Bool :=
  match l with
  | .Missing => true
  | .Null => true
  | .Value m => decide (m.expiration ≤ now)

/-- The heartbeat/release filter
`o != null && o.mutex.N == node && o.mutex.F == flag`. -/
def leaseMatches (node flag : Nat) (od : Option Document) : Bool :=
  match od with
  | some d =>
    match d.db_mutex with
    | .Value m => decide (m.node = node) && decide (m.change_flag = flag)
    | _ => false
  | none => false

/-- A per-key conditional update: `step k od` inspects only the key and the
document currently stored at it, and yields `none` (the AQL FILTER dropped
the key: no row, no write) or a returned row together with the new document. -/
def liftKeyOp {α : Type} (step : Nat → Option Document → Option (α × Document))
    (s : Store) (k : Nat) : Option α × Store :=
  match step k (s k) with
  | none => (none, s)
  | some r => (some r.1, updateStore s k r.2)

/-- Sequential execution of a per-key conditional update over a key list
(`FOR i IN keys`), collecting the returned rows in iteration order. -/
def queryFold {α : Type} (f : Store → Nat → Option α × Store) :
    Store → List Nat → List α × Store
  | s, [] => ([], s)
  | s, k :: ks =>
    ((f s k).1.toList ++ (queryFold f (f s k).2 ks).1,
      (queryFold f (f s k).2 ks).2)

/-- One key of the claim query of `acquire_list` (mod.rs lines 209-248):
FILTER o != null && o.mutex.E <= now; UPDATE i WITH the full triple
(mergeObjects); RETURN NEW. -/
def claimStep (now node_id flag : Nat) (_k : Nat) (od : Option Document) :
    Option (Document × Document) :=
  match od with
  | none => none
  | some d =>
    if leaseExpired d.db_mutex now then
      some ({ d with db_mutex := .Value ⟨node_id, flag, now + MUTEX_EXPIRATION⟩ },
            { d with db_mutex := .Value ⟨node_id, flag, now + MUTEX_EXPIRATION⟩ })
    else none

def claimKey (now node_id flag : Nat) : Store → Nat → Option Document × Store :=
  liftKeyOp (claimStep now node_id flag)

/-- One key of the heartbeat renewal query of `alive_action` (mod.rs lines
527-569): FILTER by owner and change flag; UPDATE only the expiration
sub-field (mergeObjects keeps node and change_flag); RETURN i. -/
def renewStep (now node flag : Nat) (k : Nat) (od : Option Document) :
    Option (Nat × Document) :=
  match od with
  | some d =>
    match d.db_mutex with
    | .Value m =>
      if m.node = node ∧ m.change_flag = flag then
        some (k, { d with db_mutex := .Value { m with expiration := now + MUTEX_EXPIRATION } })
      else none
    | _ => none
  | none => none

def renewKey (now node flag : Nat) : Store → Nat → Option Nat × Store :=
  liftKeyOp (renewStep now node flag)

/-- One key of the release query of `release_action` (mod.rs lines 614-651):
FILTER by owner and change flag; UPDATE i WITH mutex: null under OPTIONS
keepNulls: false, which removes the attribute, so the field becomes the
tri-state Missing, not the explicit Null; RETURN i. -/
def releaseStep (node flag : Nat) (k : Nat) (od : Option Document) :
    Option (Nat × Document) :=
  match od with
  | some d =>
    match d.db_mutex with
    | .Value m =>
      if m.node = node ∧ m.change_flag = flag then
        some (k, { d with db_mutex := .Missing })
      else none
    | _ => none
  | none => none

def releaseKey (node flag : Nat) : Store → Nat → Option Nat × Store :=
  liftKeyOp (releaseStep node flag)

/-- The result re-alignment loop of `acquire_list` (mod.rs lines 272-292),
transcribed branch by branch: `index` is advanced only in the
`Some(Some(v))` arm; the `Some(None)` arm and the `None` (push) arm
`continue` without advancing it. -/
def adjust_results : List Nat → Nat → List (Option Document) → List (Option Document)
  | [], _, results => results
  | key :: keys, index, results =>
    match results[index]? with
    | some (some v) =>
      if v.db_key = some key then adjust_results keys (index + 1) results
      else adjust_results keys (index + 1) (results.insertIdx index none)
    | some none => adjust_results keys index results
    | none => adjust_results keys index (results ++ [none])

/-- What `acquire_list` returns: the adjusted result vector, the key set and
change flag stored in the new guard, and the store after the claim query. -/
structure AcquireListResult where
  results : List (Option Document)
  elements : Finset Nat
  change_flag : Nat
  store : Store

/-- `DBMutexGuard::acquire_list` (mod.rs lines 181-301) against an executor
that runs the claim query key by key: the empty-keys shortcut, the claim
query, the guard element set collected from the returned rows, and the
re-alignment of the result list. `flag` is the `DBUuid::new()` change flag
generated for this acquisition. -/
def acquire_list (keys : List Nat) (node_id now flag : Nat) (s : Store) :
    AcquireListResult :=
  if keys.isEmpty then ⟨[], ∅, flag, s⟩
  else
    let q := queryFold (claimKey now node_id flag) s keys
    ⟨adjust_results keys 0 (q.1.map some),
      (q.1.filterMap (fun d => d.db_key)).toFinset, flag, q.2⟩

/-- `BDMutexGuardInner` (mod.rs lines 31-37): node id, tracked key set,
change flag, and whether the heartbeat task handle `alive_job` is `Some`
(the collection reference is the ambient store). -/
structure BDMutexGuardInner where
  node_id : Nat
  elements : Finset Nat
  change_flag : Nat
  alive_job : Bool
deriving DecidableEq

/-- Outcome of one heartbeat renewal query round trip, as seen by
`alive_action`: a transport/backend error, or the matched key set. -/
inductive QueryOutcome where
  | fail : QueryOutcome
  | ok (matched : Finset Nat) : QueryOutcome
deriving DecidableEq

/-- Result of one iteration of the `alive_action` loop: the guard state
after the iteration, whether the loop keeps running, and whether the
iteration logged an error. The loop body returns unit, so no error can be
propagated; logging is its only failure channel. -/
structure AliveTick where
  state : BDMutexGuardInner
  continues : Bool
  loggedError : Bool
deriving DecidableEq

/-- One iteration of `DBMutexGuard::alive_action` (mod.rs lines 505-593)
after the interval sleep, with the query outcome abstracted: return if the
handle was already taken or the element set is empty; on a query error take
the handle, log and stop; on an empty matched set take the handle and stop;
otherwise replace `elements` with the matched set and continue. -/
def alive_action_step (g : BDMutexGuardInner) (q : QueryOutcome) : AliveTick :=
  if g.alive_job = false then ⟨g, false, false⟩
  else if g.elements = ∅ then ⟨g, false, false⟩
  else
    match q with
    | .fail => ⟨{ g with alive_job := false }, false, true⟩
    | .ok r =>
      if r = ∅ then ⟨{ g with alive_job := false }, false, false⟩
      else ⟨{ g with elements := r }, true, false⟩

/-- The renewal query one `alive_action` iteration sends (mod.rs lines
527-569), over the guard's current elements. -/
def alive_renew_query (g : BDMutexGuardInner) (now : Nat) (s : Store) :
    List Nat × Store :=
  queryFold (renewKey now g.node_id g.change_flag) s (g.elements.sort (· ≤ ·))

/-- Result of `release_action`: guard state, store, whether the clear query
was sent, and the keys logged as release anomalies. -/
structure ReleaseOutcome where
  state : BDMutexGuardInner
  store : Store
  queryIssued : Bool
  anomalies : List Nat

/-- `DBMutexGuard::release_action` (mod.rs lines 595-677): return at once if
the heartbeat handle is already gone; otherwise take it, return if the
element set is empty, else send the conditional clear query and log every
element whose key is missing from the matched rows. -/
def release_action (g : BDMutexGuardInner) (s : Store) : ReleaseOutcome :=
  if g.alive_job = false then ⟨g, s, false, []⟩
  else
    let g1 : BDMutexGuardInner := { g with alive_job := false }
    if g1.elements = ∅ then ⟨g1, s, false, []⟩
    else
      let q := queryFold (releaseKey g.node_id g.change_flag) s (g.elements.sort (· ≤ ·))
      ⟨g1, q.2, true, (g.elements.sort (· ≤ ·)).filter (fun k => decide (k ∉ q.1))⟩

/-- The loop of `DBMutexGuard::pop` (mod.rs lines 450-456): walk the
requested keys, removing each one found in `elements` and collecting it
for the new guard. Returns (remaining elements, moved keys). -/
def popLoop : List Nat → Finset Nat → Finset Nat × Finset Nat
  | [], elems => (elems, ∅)
  | k :: ks, elems =>
    if k ∈ elems then
      ((popLoop ks (elems.erase k)).1, insert k (popLoop ks (elems.erase k)).2)
    else popLoop ks elems

/-- Result of `pop`: the shrunk original guard and the new guard. -/
structure PopResult where
  orig : BDMutexGuardInner
  popped : BDMutexGuardInner
deriving DecidableEq

/-- `DBMutexGuard::pop` (mod.rs lines 447-496): move the requested keys out
of the guard; the original guard's heartbeat is cancelled when it becomes
empty; the new guard reuses the node id, and reuses the change flag only in
the non-empty branch - the empty branch builds it with a fresh
`DBUuid::new()`, modelled by the `fresh` argument. -/
def pop (g : BDMutexGuardInner) (keys : List Nat) (fresh : Nat) : PopResult :=
  let p := popLoop keys g.elements
  let origJob : Bool := if p.1 = ∅ then false else g.alive_job
  let poppedGuard : BDMutexGuardInner :=
    if p.2 = ∅ then ⟨g.node_id, p.2, fresh, true⟩
    else ⟨g.node_id, p.2, g.change_flag, true⟩
  ⟨⟨g.node_id, p.1, g.change_flag, origJob⟩, poppedGuard⟩

/-- `DBMutexError` from `db_mutex/errors.rs`. -/
inductive DBMutexError where
  | NotFound : DBMutexError
  | Timeout : DBMutexError
  | Other : DBMutexError
deriving DecidableEq

/-- Environment of one iteration of the `acquire_document` polling loop:
whether the deadline check at the top of the loop fires, the current time,
the change flag `acquire_list` will generate, and the store snapshot this
iteration runs against. -/
structure AttemptEnv where
  timeoutExpired : Bool
  now : Nat
  freshFlag : Nat
  store : Store

/-- How one run of the `acquire_document` loop can end. -/
inductive AcquireOutcome where
  | ok (d : Document) : AcquireOutcome
  | err (e : DBMutexError) : AcquireOutcome
  | panicked : AcquireOutcome
deriving DecidableEq

/-- Result of running the polling loop over a trace of iteration
environments: the outcome (`none` when the trace ran out while still
looping), how many times `exists_by_key` was queried, and how many backoff
sleeps were taken. -/
structure LoopOutcome where
  outcome : Option AcquireOutcome
  existsChecks : Nat
  sleeps : Nat
deriving DecidableEq

/-- The loop of `DBMutexGuard::acquire_document` (mod.rs lines 84-119):
check the deadline; run `acquire_list` on the single key and pop the last
entry (`panicked` models `.unwrap()` on an empty vector); on a `None` claim,
check document existence once (returning `NotFound` if absent, before any
sleep), then sleep and retry on the next environment. -/
def acquire_document_loop (key node_id : Nat) :
    List AttemptEnv → Bool → LoopOutcome
  | [], _ => ⟨none, 0, 0⟩
  | env :: rest, checked =>
    if env.timeoutExpired then ⟨some (.err .Timeout), 0, 0⟩
    else
      match (acquire_list [key] node_id env.now env.freshFlag env.store).results.getLast? with
      | none => ⟨some .panicked, 0, 0⟩
      | some (some v) => ⟨some (.ok v), 0, 0⟩
      | some none =>
        if checked = false then
          if (env.store key).isSome then
            ⟨(acquire_document_loop key node_id rest true).outcome,
              (acquire_document_loop key node_id rest true).existsChecks + 1,
              (acquire_document_loop key node_id rest true).sleeps + 1⟩
          else ⟨some (.err .NotFound), 1, 0⟩
        else
          ⟨(acquire_document_loop key node_id rest checked).outcome,
            (acquire_document_loop key node_id rest checked).existsChecks,
            (acquire_document_loop key node_id rest checked).sleeps + 1⟩

/-- A document whose lease is held: key `k`, owner `own`, change flag
`flag`, expiration `exp`. -/
def lockedDoc (k own flag exp : Nat) : Document :=
  ⟨some k, .Value ⟨own, flag, exp⟩, 0⟩

/-- A store with keys 1 and 2 both leased by node 9 until time 1000. -/
def storeTwoLockedA : Store := fun k =>
  if k = 1 then some (lockedDoc 1 9 3 1000)
  else if k = 2 then some (lockedDoc 2 9 3 1000) else none

/-- A store with keys 3 and 4 both leased by node 9 until time 1000. -/
def storeTwoLockedB : Store := fun k =>
  if k = 3 then some (lockedDoc 3 9 4 1000)
  else if k = 4 then some (lockedDoc 4 9 4 1000) else none

/-- A store used for the release witnesses: key 1 is leased by node 5 with
change flag 7 until time 1000. -/
def storeOwnLocked : Store := fun k =>
  if k = 1 then some (lockedDoc 1 5 7 1000) else none

/-- A store used for the renewal witness: key 1 is leased by node 5 with
change flag 7 until time 1000 = 790 + MUTEX_EXPIRATION. -/
def storeRenewLocked : Store := fun k =>
  if k = 1 then some (lockedDoc 1 5 7 (790 + MUTEX_EXPIRATION)) else none

/-- A per-key operation writes the store only at its own key. -/
def WritesOwnKey {α : Type} (f : Store → Nat → Option α × Store) : Prop :=
  ∀ s k q, q ≠ k → (f s k).2 q = s q

/-- A per-key operation reads the store only at its own key: its row and its
write at that key depend only on the document stored there. -/
def ReadsOwnKey {α : Type} (f : Store → Nat → Option α × Store) : Prop :=
  ∀ s t k, s k = t k → (f s k).1 = (f t k).1 ∧ (f s k).2 k = (f t k).2 k

/-- A key-returning per-key operation returns either no row or its own key. -/
def RowsOwnKey (f : Store → Nat → Option Nat × Store) : Prop :=
  ∀ s k, (f s k).1 = none ∨ (f s k).1 = some k

lemma liftKeyOp_writesOwnKey {α : Type}
    (step : Nat → Option Document → Option (α × Document)) :
    WritesOwnKey (liftKeyOp step) := by
  intro s k q hqk
  unfold liftKeyOp
  cases h : step k (s k) with
  | none => rfl
  | some r => simp [updateStore, hqk]

lemma liftKeyOp_readsOwnKey {α : Type}
    (step : Nat → Option Document → Option (α × Document)) :
    ReadsOwnKey (liftKeyOp step) := by
  intro s t k hst
  unfold liftKeyOp
  rw [hst]
  cases h : step k (t k) with
  | none => exact ⟨rfl, hst⟩
  | some r => exact ⟨rfl, by simp [updateStore]⟩

lemma liftKeyOp_rowsOwnKey (step : Nat → Option Document → Option (Nat × Document))
    (hstep : ∀ k od r, step k od = some r → r.1 = k) :
    RowsOwnKey (liftKeyOp step) := by
  intro s k
  unfold liftKeyOp
  cases h : step k (s k) with
  | none => left; rfl
  | some r =>
    right
    have hr := hstep k (s k) r h
    simp [hr]

lemma renewStep_row_is_key (now node flag k : Nat) (od : Option Document)
    (r : Nat × Document) (h : renewStep now node flag k od = some r) : r.1 = k := by
  simp only [renewStep] at h
  repeat' split at h
  all_goals first
    | (cases h; rfl)
    | (cases h)

lemma releaseStep_row_is_key (node flag k : Nat) (od : Option Document)
    (r : Nat × Document) (h : releaseStep node flag k od = some r) : r.1 = k := by
  simp only [releaseStep] at h
  repeat' split at h
  all_goals first
    | (cases h; rfl)
    | (cases h)

lemma renewKey_rowsOwnKey (now node flag : Nat) :
    RowsOwnKey (renewKey now node flag) :=
  liftKeyOp_rowsOwnKey _ (renewStep_row_is_key now node flag)

lemma releaseKey_rowsOwnKey (node flag : Nat) :
    RowsOwnKey (releaseKey node flag) :=
  liftKeyOp_rowsOwnKey _ (releaseStep_row_is_key node flag)

lemma queryFold_nil {α : Type} (f : Store → Nat → Option α × Store) (s : Store) :
    queryFold f s [] = ([], s) := rfl

lemma queryFold_cons_fst {α : Type} (f : Store → Nat → Option α × Store)
    (s : Store) (a : Nat) (ks : List Nat) :
    (queryFold f s (a :: ks)).1 = (f s a).1.toList ++ (queryFold f (f s a).2 ks).1 := rfl

lemma queryFold_cons_snd {α : Type} (f : Store → Nat → Option α × Store)
    (s : Store) (a : Nat) (ks : List Nat) :
    (queryFold f s (a :: ks)).2 = (queryFold f (f s a).2 ks).2 := rfl

/-- Keys the query does not visit keep their document. -/
lemma queryFold_store_not_mem {α : Type} {f : Store → Nat → Option α × Store}
    (hW : WritesOwnKey f) :
    ∀ (ks : List Nat) (s : Store) (k : Nat), k ∉ ks → (queryFold f s ks).2 k = s k := by
  intro ks
  induction ks with
  | nil => intro s k _; rfl
  | cons a ks ih =>
    intro s k hk
    rw [List.mem_cons, not_or] at hk
    rw [queryFold_cons_snd, ih _ _ hk.2]
    exact hW s a k hk.1

/-- On a duplicate-free key list, the final document at a visited key is the
one produced by that key's own conditional update, run against the document
the key had before the query. -/
lemma queryFold_store_mem {α : Type} {f : Store → Nat → Option α × Store}
    (hW : WritesOwnKey f) (hR : ReadsOwnKey f) :
    ∀ (ks : List Nat) (s : Store) (k : Nat), ks.Nodup → k ∈ ks →
      (queryFold f s ks).2 k = (f s k).2 k := by
  intro ks
  induction ks with
  | nil => intro s k _ hk; simp at hk
  | cons a ks ih =>
    intro s k hnd hk
    rw [List.nodup_cons] at hnd
    rw [queryFold_cons_snd]
    rcases List.mem_cons.mp hk with rfl | hmem
    · exact queryFold_store_not_mem hW ks _ k hnd.1
    · have hka : k ≠ a := fun h => hnd.1 (h ▸ hmem)
      rw [ih _ k hnd.2 hmem]
      exact (hR ((f s a).2) s k (hW s a k hka)).2

/-- Rows of a key-returning query only mention visited keys. -/
lemma queryFold_rows_subset {f : Store → Nat → Option Nat × Store}
    (hRow : RowsOwnKey f) :
    ∀ (ks : List Nat) (s : Store) (x : Nat), x ∈ (queryFold f s ks).1 → x ∈ ks := by
  intro ks
  induction ks with
  | nil => intro s x hx; rw [queryFold_nil] at hx; cases hx
  | cons a ks ih =>
    intro s x hx
    rw [queryFold_cons_fst, List.mem_append] at hx
    rcases hx with hx | hx
    · rcases hRow s a with h | h
      · rw [h] at hx; cases hx
      · rw [h] at hx
        simp at hx
        rw [hx]
        exact List.mem_cons_self a ks
    · exact List.mem_cons_of_mem a (ih _ _ hx)

/-- On a duplicate-free key list, a visited key shows up in the returned
rows exactly when its own conditional update matched. -/
lemma queryFold_mem_rows {f : Store → Nat → Option Nat × Store}
    (hW : WritesOwnKey f) (hR : ReadsOwnKey f) (hRow : RowsOwnKey f) :
    ∀ (ks : List Nat) (s : Store) (k : Nat), ks.Nodup → k ∈ ks →
      (k ∈ (queryFold f s ks).1 ↔ (f s k).1 = some k) := by
  intro ks
  induction ks with
  | nil => intro s k _ hk; simp at hk
  | cons a ks ih =>
    intro s k hnd hk
    rw [List.nodup_cons] at hnd
    rw [queryFold_cons_fst, List.mem_append]
    rcases List.mem_cons.mp hk with rfl | hmem
    · constructor
      · intro h
        rcases h with h | h
        · rcases hRow s k with hr | hr
          · rw [hr] at h; cases h
          · exact hr
        · exact absurd (queryFold_rows_subset hRow ks _ k h) hnd.1
      · intro h
        left
        rw [h]
        exact List.mem_cons_self k []
    · have hka : k ≠ a := fun h => hnd.1 (h ▸ hmem)
      have hfs : (f ((f s a).2) k).1 = (f s k).1 :=
        (hR ((f s a).2) s k (hW s a k hka)).1
      have hih := ih ((f s a).2) k hnd.2 hmem
      rw [hfs] at hih
      constructor
      · intro h
        rcases h with h | h
        · rcases hRow s a with hr | hr
          · rw [hr] at h; cases h
          · rw [hr] at h
            simp at h
            exact absurd h hka
        · exact hih.mp h
      · intro h
        right
        exact hih.mpr h

/-- The re-alignment loop never shrinks the buffer: every branch keeps it or
inserts one entry. -/
lemma adjust_results_length_mono :
    ∀ (keys : List Nat) (index : Nat) (res : List (Option Document)),
      res.length ≤ (adjust_results keys index res).length := by
  intro keys
  induction keys with
  | nil => intro index res; exact Nat.le_refl _
  | cons k ks ih =>
    intro index res
    simp only [adjust_results]
    split
    · split
      · exact ih (index + 1) res
      · exact Nat.le_trans (List.length_le_length_insertIdx res none index)
          (ih (index + 1) _)
    · exact ih index res
    · exact Nat.le_trans (by simp) (ih index (res ++ [none]))

/-- On a non-empty key list the adjusted vector is non-empty: either the
buffer already holds an entry, or the first key pushes a None. -/
lemma adjust_results_ne_nil (keys : List Nat) (index : Nat)
    (res : List (Option Document)) (h : keys ≠ []) :
    adjust_results keys index res ≠ [] := by
  cases keys with
  | nil => exact absurd rfl h
  | cons k ks =>
    cases res with
    | nil =>
      simp only [adjust_results, List.getElem?_nil]
      have hlen := adjust_results_length_mono ks index ([] ++ [none])
      simp only [List.nil_append, List.length_cons, List.length_nil] at hlen
      exact List.ne_nil_of_length_pos (Nat.lt_of_lt_of_le Nat.zero_lt_one hlen)
    | cons r rs =>
      have hlen := adjust_results_length_mono (k :: ks) index (r :: rs)
      exact List.ne_nil_of_length_pos
        (Nat.lt_of_lt_of_le (Nat.succ_pos rs.length) hlen)

/-- A claim on a key with no document yields no row, so the single-key
result vector re-aligns to exactly one None entry. -/
lemma acquire_list_missing_key (key node_id now flag : Nat) (s : Store)
    (h : s key = none) :
    (acquire_list [key] node_id now flag s).results = [none] := by
  simp [acquire_list, queryFold, claimKey, liftKeyOp, claimStep, h, adjust_results]

/-- Once the existence flag is set, the polling loop never checks again. -/
lemma acquire_document_loop_checked_no_checks (key node_id : Nat) :
    ∀ (trace : List AttemptEnv),
      (acquire_document_loop key node_id trace true).existsChecks = 0 := by
  intro trace
  induction trace with
  | nil => rfl
  | cons env rest ih =>
    simp only [acquire_document_loop]
    split
    · rfl
    · split
      · rfl
      · rfl
      · simp [ih]

/-- The polling loop checks document existence at most once per call. -/
lemma acquire_document_loop_checks_le_one (key node_id : Nat) :
    ∀ (trace : List AttemptEnv) (checked : Bool),
      (acquire_document_loop key node_id trace checked).existsChecks ≤ 1 := by
  intro trace
  induction trace with
  | nil => intro checked; exact Nat.zero_le 1
  | cons env rest ih =>
    intro checked
    simp only [acquire_document_loop]
    split
    · exact Nat.zero_le 1
    · split
      · exact Nat.zero_le 1
      · exact Nat.zero_le 1
      · split
        · split
          · simp [acquire_document_loop_checked_no_checks]
          · exact Nat.le_refl 1
        · exact ih checked

/-- `release_action` on a live, non-empty guard: handle taken, clear query
sent over the element list, anomalies collected from the unmatched keys. -/
lemma release_action_eq_of_active (g : BDMutexGuardInner) (s : Store)
    (hjob : g.alive_job = true) (hne : g.elements ≠ ∅) :
    release_action g s =
      ⟨{ g with alive_job := false },
        (queryFold (releaseKey g.node_id g.change_flag) s (g.elements.sort (· ≤ ·))).2,
        true,
        (g.elements.sort (· ≤ ·)).filter
          (fun k => decide (k ∉ (queryFold (releaseKey g.node_id g.change_flag) s
            (g.elements.sort (· ≤ ·))).1))⟩ := by
  simp [release_action, hjob, hne]

/-- A per-key release on a document that fails the owner/flag filter does
nothing and returns no row. -/
lemma releaseStep_none_of_no_match (node flag k : Nat) (od : Option Document)
    (h : leaseMatches node flag od = false) : releaseStep node flag k od = none := by
  cases od with
  | none => rfl
  | some d =>
    simp only [leaseMatches] at h
    simp only [releaseStep]
    cases hm : d.db_mutex with
    | Value m =>
      rw [hm] at h
      have h2 : (decide (m.node = node) && decide (m.change_flag = flag)) = false := h
      show (if m.node = node ∧ m.change_flag = flag then
        some (k, { d with db_mutex := NullableOption.Missing }) else none) = none
      rw [if_neg]
      intro hc
      simp [hc.1, hc.2] at h2
    | Missing => rfl
    | Null => rfl

/-- The remaining elements after the pop loop are the set difference. -/
lemma popLoop_fst :
    ∀ (keys : List Nat) (elems : Finset Nat),
      (popLoop keys elems).1 = elems \ keys.toFinset := by
  intro keys
  induction keys with
  | nil => intro elems; simp [popLoop]
  | cons k ks ih =>
    intro elems
    simp only [popLoop]
    by_cases hk : k ∈ elems
    · rw [if_pos hk, ih]
      ext x
      simp only [Finset.mem_sdiff, Finset.mem_erase, List.toFinset_cons,
        Finset.mem_insert, not_or]
      by_cases hxk : x = k
      · subst hxk
        simp
      · simp [hxk]
    · rw [if_neg hk, ih]
      ext x
      simp only [Finset.mem_sdiff, List.toFinset_cons, Finset.mem_insert, not_or]
      by_cases hxk : x = k
      · subst hxk
        simp [hk]
      · simp [hxk]

/-- The keys moved out by the pop loop are the intersection. -/
lemma popLoop_snd :
    ∀ (keys : List Nat) (elems : Finset Nat),
      (popLoop keys elems).2 = elems ∩ keys.toFinset := by
  intro keys
  induction keys with
  | nil => intro elems; simp [popLoop]
  | cons k ks ih =>
    intro elems
    simp only [popLoop]
    by_cases hk : k ∈ elems
    · rw [if_pos hk, ih]
      ext x
      simp only [Finset.mem_insert, Finset.mem_inter, Finset.mem_erase,
        List.toFinset_cons]
      by_cases hxk : x = k
      · subst hxk
        simp [hk]
      · simp [hxk]
    · rw [if_neg hk, ih]
      ext x
      simp only [Finset.mem_inter, List.toFinset_cons, Finset.mem_insert]
      by_cases hxk : x = k
      · subst hxk
        simp [hk]
      · simp [hxk]

/-- A guard whose heartbeat handle is gone returns from release at once. -/
lemma release_action_of_consumed (g : BDMutexGuardInner) (s : Store)
    (h : g.alive_job = false) : release_action g s = ⟨g, s, false, []⟩ := by
  simp [release_action, h]

/-- C1: with keys 1 and 2 both holding a live lease of another node (node 9,
expiration 1000, at now = 10), the claim query matches nothing and both
stored leases keep their owner, expiration and fencing token - but the
returned vector is just [None]: key 2 has no slot at all, contradicting the
claim that every unclaimable key's slot is None. -/
theorem acquire_list_locked_keys_keep_lease_lose_slot :
    (acquire_list [1, 2] 5 10 77 storeTwoLockedA).results = [none]
    ∧ (acquire_list [1, 2] 5 10 77 storeTwoLockedA).store 1 = some (lockedDoc 1 9 3 1000)
    ∧ (acquire_list [1, 2] 5 10 77 storeTwoLockedA).store 2 = some (lockedDoc 2 9 3 1000)
    ∧ (acquire_list [1, 2] 5 10 77 storeTwoLockedA).results.length < [1, 2].length := by
  refine ⟨by decide, by decide, by decide, by decide⟩

/-- C2: evaluation at the failing input - two requested keys, both already
locked, so the executor returns no rows: the re-aligned vector is [None],
of length 1, not of length 2 as the claim requires. -/
theorem acquire_list_result_vector_truncated :
    (acquire_list [3, 4] 5 10 77 storeTwoLockedB).results = [none]
    ∧ (acquire_list [3, 4] 5 10 77 storeTwoLockedB).results.length ≠ [3, 4].length := by
  refine ⟨by decide, by decide⟩

/-- C3: one iteration of the heartbeat loop on a live guard with a non-empty
element set: a query error logs and stops without touching elements (and
without any error in the return type, which is unit); an empty matched set
stops without touching elements; a non-empty matched set replaces elements
and continues; and the Stopped state (handle taken) is terminal. -/
theorem alive_action_step_machine (g : BDMutexGuardInner)
    (hjob : g.alive_job = true) (hne : g.elements ≠ ∅) :
    alive_action_step g .fail = ⟨{ g with alive_job := false }, false, true⟩
    ∧ alive_action_step g (.ok ∅) = ⟨{ g with alive_job := false }, false, false⟩
    ∧ (∀ r : Finset Nat, r ≠ ∅ →
        alive_action_step g (.ok r) = ⟨{ g with elements := r }, true, false⟩)
    ∧ (∀ q : QueryOutcome,
        alive_action_step { g with alive_job := false } q
          = ⟨{ g with alive_job := false }, false, false⟩) := by
  refine ⟨?_, ?_, ?_, ?_⟩
  · simp [alive_action_step, hjob, hne]
  · simp [alive_action_step, hjob, hne]
  · intro r hr
    simp [alive_action_step, hjob, hne, hr]
  · intro q
    simp [alive_action_step]

/-- Witness for C3: a concrete guard, query-error tick. -/
theorem alive_action_step_machine_witness :
    alive_action_step ⟨5, {1}, 7, true⟩ .fail = ⟨⟨5, {1}, 7, false⟩, false, true⟩ :=
  (alive_action_step_machine ⟨5, {1}, 7, true⟩ rfl (by decide)).1

/-- C5: the release process runs its body at most once per guard: the state
it leaves always has the heartbeat handle consumed, a second run on that
state changes nothing and sends no query, and a run on any guard whose
handle is already gone returns immediately. -/
theorem release_action_runs_at_most_once (g : BDMutexGuardInner) (s1 s2 : Store) :
    (release_action g s1).state.alive_job = false
    ∧ release_action (release_action g s1).state s2
        = ⟨(release_action g s1).state, s2, false, []⟩
    ∧ release_action { g with alive_job := false } s1
        = ⟨{ g with alive_job := false }, s1, false, []⟩ := by
  have hstate : (release_action g s1).state.alive_job = false := by
    simp only [release_action]
    split
    · next h => exact h
    · split
      · rfl
      · rfl
  refine ⟨hstate, ?_, ?_⟩
  · exact release_action_of_consumed ((release_action g s1).state) s2 hstate
  · exact release_action_of_consumed _ s1 rfl

/-- C9: after the heartbeat loop stops itself on a query error or an empty
matched set, the element set is untouched (possibly still non-empty) and a
later release works on a consumed handle: it returns at once, issues no
clear query, and leaves the store parameter alone. -/
theorem stopped_heartbeat_release_no_store_op (g : BDMutexGuardInner)
    (s : Store) (q : QueryOutcome) (hjob : g.alive_job = true)
    (hne : g.elements ≠ ∅) (hq : q = .fail ∨ q = .ok ∅) :
    release_action (alive_action_step g q).state s
      = ⟨(alive_action_step g q).state, s, false, []⟩
    ∧ (alive_action_step g q).state.elements = g.elements := by
  have hstep : (alive_action_step g q).state = { g with alive_job := false } := by
    rcases hq with rfl | rfl
    · simp [alive_action_step, hjob, hne]
    · simp [alive_action_step, hjob, hne]
  rw [hstep]
  constructor
  · simp [release_action]
  · rfl

/-- Witness for C9: concrete guard with a still non-empty element set after
a failed heartbeat round trip. -/
theorem stopped_heartbeat_release_no_store_op_witness :
    release_action (alive_action_step ⟨5, {1}, 7, true⟩ .fail).state storeOwnLocked
      = ⟨(alive_action_step ⟨5, {1}, 7, true⟩ .fail).state, storeOwnLocked, false, []⟩
    ∧ (alive_action_step ⟨5, {1}, 7, true⟩ .fail).state.elements
        = (⟨5, {1}, 7, true⟩ : BDMutexGuardInner).elements :=
  stopped_heartbeat_release_no_store_op ⟨5, {1}, 7, true⟩ storeOwnLocked .fail
    rfl (by decide) (Or.inl rfl)

/-- C6: when the document is absent, the polling loop of acquire_document
returns NotFound on the first failed claim, with exactly one existence
check and zero backoff sleeps, before any timeout can elapse; and on any
trace the existence check runs at most once. -/
theorem acquire_document_notfound_before_sleep (key node_id : Nat)
    (env : AttemptEnv) (rest : List AttemptEnv)
    (htime : env.timeoutExpired = false) (hmiss : env.store key = none) :
    acquire_document_loop key node_id (env :: rest) false
      = ⟨some (.err .NotFound), 1, 0⟩
    ∧ ∀ (trace : List AttemptEnv) (checked : Bool),
        (acquire_document_loop key node_id trace checked).existsChecks ≤ 1 := by
  constructor
  · simp only [acquire_document_loop, htime]
    rw [acquire_list_missing_key key node_id env.now env.freshFlag env.store hmiss]
    simp [hmiss]
  · intro trace checked
    exact acquire_document_loop_checks_le_one key node_id trace checked

/-- Witness for C6: single-iteration trace over an empty store. -/
theorem acquire_document_notfound_before_sleep_witness :
    acquire_document_loop 1 5 [⟨false, 0, 9, fun _ => none⟩] false
      = ⟨some (.err .NotFound), 1, 0⟩ :=
  (acquire_document_notfound_before_sleep 1 5 ⟨false, 0, 9, fun _ => none⟩ []
    rfl rfl).1

/-- C10: for every non-empty key list and every raw result list the executor
may return, the re-aligned vector holds at least one entry, so the
pop().unwrap() in acquire_document cannot panic. -/
theorem adjust_results_nonempty (keys : List Nat) (raw : List (Option Document))
    (h : keys ≠ []) :
    adjust_results keys 0 raw ≠ []
    ∧ (adjust_results keys 0 raw).getLast?.isSome = true := by
  have h1 := adjust_results_ne_nil keys 0 raw h
  refine ⟨h1, ?_⟩
  rw [List.getLast?_isSome]
  exact h1

/-- Witness for C10: single key, empty executor result. -/
theorem adjust_results_nonempty_witness :
    adjust_results [1] 0 [] ≠ []
    ∧ (adjust_results [1] 0 ([] : List (Option Document))).getLast?.isSome = true :=
  adjust_results_nonempty [1] [] (by decide)

/-- C4 counterexample: releasing a held lease leaves the lease field
Missing (the attribute is removed by keepNulls: false), not the explicit
Null the claim requires. -/
theorem release_result_is_missing_not_null :
    (release_action ⟨5, {1}, 7, true⟩ storeOwnLocked).store 1
      = some ⟨some 1, NullableOption.Missing, 0⟩
    ∧ (release_action ⟨5, {1}, 7, true⟩ storeOwnLocked).store 1
      ≠ some ⟨some 1, NullableOption.Null, 0⟩ := by
  have hs : ({1} : Finset Nat).sort (· ≤ ·) = [1] := Finset.sort_singleton _ 1
  have h1 : (release_action ⟨5, {1}, 7, true⟩ storeOwnLocked).store 1
      = some ⟨some 1, NullableOption.Missing, 0⟩ := by
    rw [release_action_eq_of_active ⟨5, {1}, 7, true⟩ storeOwnLocked rfl (by decide)]
    show (queryFold (releaseKey 5 7) storeOwnLocked
      (({1} : Finset Nat).sort (· ≤ ·))).2 1 = some ⟨some 1, NullableOption.Missing, 0⟩
    rw [hs]
    decide
  refine ⟨h1, ?_⟩
  rw [h1]
  intro hcontra
  simp at hcontra

/-- C4 (amended): release on a live guard tracking key k: if the stored
lease still carries this guard's owner and fencing token, the lease
attribute is removed, so the field becomes the tri-state Missing - in
particular it is no longer a Value; if the match fails, the document is
left untouched and k is logged as a release anomaly, with no error, panic
or retry (the model is a total function with no failure outcome). -/
theorem release_action_clears_matching_leases (g : BDMutexGuardInner)
    (s : Store) (k : Nat) (hjob : g.alive_job = true) (hk : k ∈ g.elements) :
    (∀ d m, s k = some d → d.db_mutex = .Value m → m.node = g.node_id →
      m.change_flag = g.change_flag →
      (release_action g s).store k = some { d with db_mutex := .Missing }
      ∧ k ∉ (release_action g s).anomalies)
    ∧ (leaseMatches g.node_id g.change_flag (s k) = false →
      (release_action g s).store k = s k
      ∧ k ∈ (release_action g s).anomalies) := by
  have hne : g.elements ≠ ∅ := by
    intro h
    rw [h] at hk
    exact absurd hk (Finset.not_mem_empty k)
  have hnd : (g.elements.sort (· ≤ ·)).Nodup := Finset.sort_nodup _ _
  have hkL : k ∈ g.elements.sort (· ≤ ·) := (Finset.mem_sort _).mpr hk
  have hW : WritesOwnKey (releaseKey g.node_id g.change_flag) :=
    liftKeyOp_writesOwnKey _
  have hR : ReadsOwnKey (releaseKey g.node_id g.change_flag) :=
    liftKeyOp_readsOwnKey _
  have hRow : RowsOwnKey (releaseKey g.node_id g.change_flag) :=
    releaseKey_rowsOwnKey _ _
  have hra := release_action_eq_of_active g s hjob hne
  have hstore : (release_action g s).store
      = (queryFold (releaseKey g.node_id g.change_flag) s
          (g.elements.sort (· ≤ ·))).2 := by
    rw [hra]
  have hanom : (release_action g s).anomalies
      = (g.elements.sort (· ≤ ·)).filter
          (fun k => decide (k ∉ (queryFold (releaseKey g.node_id g.change_flag) s
            (g.elements.sort (· ≤ ·))).1)) := by
    rw [hra]
  constructor
  · intro d m hd hm hnode hflag
    have hstep : releaseStep g.node_id g.change_flag k (s k)
        = some (k, { d with db_mutex := NullableOption.Missing }) := by
      rw [hd]
      simp [releaseStep, hm, hnode, hflag]
    have hkey1 : (releaseKey g.node_id g.change_flag s k).1 = some k := by
      simp [releaseKey, liftKeyOp, hstep]
    have hkey2 : (releaseKey g.node_id g.change_flag s k).2 k
        = some { d with db_mutex := NullableOption.Missing } := by
      simp [releaseKey, liftKeyOp, hstep, updateStore]
    constructor
    · rw [hstore, queryFold_store_mem hW hR _ s k hnd hkL, hkey2]
    · rw [hanom]
      intro hcontra
      rw [List.mem_filter] at hcontra
      have hmem : k ∈ (queryFold (releaseKey g.node_id g.change_flag) s
          (g.elements.sort (· ≤ ·))).1 :=
        (queryFold_mem_rows hW hR hRow _ s k hnd hkL).mpr hkey1
      exact absurd hmem (of_decide_eq_true hcontra.2)
  · intro hmatch
    have hstep : releaseStep g.node_id g.change_flag k (s k) = none :=
      releaseStep_none_of_no_match _ _ _ _ hmatch
    have hkey1 : (releaseKey g.node_id g.change_flag s k).1 = none := by
      simp [releaseKey, liftKeyOp, hstep]
    have hkey2 : (releaseKey g.node_id g.change_flag s k).2 k = s k := by
      simp [releaseKey, liftKeyOp, hstep]
    constructor
    · rw [hstore, queryFold_store_mem hW hR _ s k hnd hkL, hkey2]
    · rw [hanom, List.mem_filter]
      refine ⟨hkL, ?_⟩
      rw [decide_eq_true_iff]
      intro hmem
      have hrow := (queryFold_mem_rows hW hR hRow _ s k hnd hkL).mp hmem
      rw [hkey1] at hrow
      cases hrow

/-- Witness for C4 (amended): concrete matching release. -/
theorem release_action_clears_matching_leases_witness :
    (release_action ⟨5, {1}, 7, true⟩ storeOwnLocked).store 1
      = some { lockedDoc 1 5 7 1000 with db_mutex := NullableOption.Missing }
    ∧ 1 ∉ (release_action ⟨5, {1}, 7, true⟩ storeOwnLocked).anomalies :=
  ((release_action_clears_matching_leases ⟨5, {1}, 7, true⟩ storeOwnLocked 1
    rfl (by decide)).1) (lockedDoc 1 5 7 1000) ⟨5, 7, 1000⟩ rfl rfl rfl rfl

/-- C7: a heartbeat renewal on a key whose stored lease still carries this
guard's owner and fencing token rewrites only the expiration: the document
after renewal keeps its key, payload, owner and fencing token, the new
expiration is now + MUTEX_EXPIRATION, the key is in the matched set, and
the new expiration is strictly later than the one granted at acquisition
time t0 whenever the renewal happens at t1 > t0. -/
theorem alive_renewal_preserves_owner_token (g : BDMutexGuardInner)
    (s : Store) (t0 t1 k : Nat) (d : Document) (m : DBMutex)
    (hk : k ∈ g.elements) (hd : s k = some d) (hm : d.db_mutex = .Value m)
    (hnode : m.node = g.node_id) (hflag : m.change_flag = g.change_flag)
    (hexp : m.expiration = t0 + MUTEX_EXPIRATION) (ht : t0 < t1) :
    (alive_renew_query g t1 s).2 k
      = some { d with db_mutex :=
          NullableOption.Value { m with expiration := t1 + MUTEX_EXPIRATION } }
    ∧ k ∈ (alive_renew_query g t1 s).1
    ∧ m.expiration < t1 + MUTEX_EXPIRATION := by
  have hnd : (g.elements.sort (· ≤ ·)).Nodup := Finset.sort_nodup _ _
  have hkL : k ∈ g.elements.sort (· ≤ ·) := (Finset.mem_sort _).mpr hk
  have hW : WritesOwnKey (renewKey t1 g.node_id g.change_flag) :=
    liftKeyOp_writesOwnKey _
  have hR : ReadsOwnKey (renewKey t1 g.node_id g.change_flag) :=
    liftKeyOp_readsOwnKey _
  have hRow : RowsOwnKey (renewKey t1 g.node_id g.change_flag) :=
    renewKey_rowsOwnKey _ _ _
  have hstep : renewStep t1 g.node_id g.change_flag k (s k)
      = some (k, { d with db_mutex :=
          NullableOption.Value { m with expiration := t1 + MUTEX_EXPIRATION } }) := by
    rw [hd]
    simp [renewStep, hm, hnode, hflag]
  have hkey1 : (renewKey t1 g.node_id g.change_flag s k).1 = some k := by
    simp [renewKey, liftKeyOp, hstep]
  have hkey2 : (renewKey t1 g.node_id g.change_flag s k).2 k
      = some { d with db_mutex :=
          NullableOption.Value { m with expiration := t1 + MUTEX_EXPIRATION } } := by
    simp [renewKey, liftKeyOp, hstep, updateStore]
  refine ⟨?_, ?_, ?_⟩
  · unfold alive_renew_query
    rw [queryFold_store_mem hW hR _ s k hnd hkL, hkey2]
  · unfold alive_renew_query
    exact (queryFold_mem_rows hW hR hRow _ s k hnd hkL).mpr hkey1
  · rw [hexp]
    exact Nat.add_lt_add_right ht MUTEX_EXPIRATION

/-- Witness for C7: concrete renewal of a lease granted at 790, renewed at
791. -/
theorem alive_renewal_preserves_owner_token_witness :
    (alive_renew_query ⟨5, {1}, 7, true⟩ 791 storeRenewLocked).2 1
      = some ⟨some 1, NullableOption.Value ⟨5, 7, 791 + MUTEX_EXPIRATION⟩, 0⟩
    ∧ 1 ∈ (alive_renew_query ⟨5, {1}, 7, true⟩ 791 storeRenewLocked).1
    ∧ 790 + MUTEX_EXPIRATION < 791 + MUTEX_EXPIRATION :=
  alive_renewal_preserves_owner_token ⟨5, {1}, 7, true⟩ storeRenewLocked 790 791 1
    (lockedDoc 1 5 7 (790 + MUTEX_EXPIRATION)) ⟨5, 7, 790 + MUTEX_EXPIRATION⟩
    (by decide) rfl rfl rfl rfl rfl (by decide)

/-- C8 counterexample: popping a key that is not held moves nothing, and the
new (empty) guard carries a freshly generated fencing token, not the
original guard's token as the claim states. -/
theorem pop_empty_intersection_gets_fresh_token :
    (pop ⟨5, {1}, 7, true⟩ [2] 8).popped.elements = ∅
    ∧ (pop ⟨5, {1}, 7, true⟩ [2] 8).popped.node_id = 5
    ∧ (pop ⟨5, {1}, 7, true⟩ [2] 8).popped.change_flag = 8
    ∧ (pop ⟨5, {1}, 7, true⟩ [2] 8).popped.change_flag
        ≠ (⟨5, {1}, 7, true⟩ : BDMutexGuardInner).change_flag := by
  refine ⟨by decide, by decide, by decide, by decide⟩

/-- C8 (amended): pop moves exactly the intersection of the requested keys
and the tracked elements into the new guard, leaving the difference in the
original guard, with the two sets disjoint; the new guard keeps the node
id, and keeps the fencing token whenever the moved set is non-empty (an
empty pop builds the new guard with a fresh token). -/
theorem pop_moves_intersection (g : BDMutexGuardInner) (keys : List Nat)
    (fresh : Nat) :
    (pop g keys fresh).popped.elements = g.elements ∩ keys.toFinset
    ∧ (pop g keys fresh).orig.elements = g.elements \ keys.toFinset
    ∧ Disjoint (pop g keys fresh).popped.elements (pop g keys fresh).orig.elements
    ∧ (pop g keys fresh).popped.node_id = g.node_id
    ∧ (pop g keys fresh).orig.node_id = g.node_id
    ∧ (pop g keys fresh).orig.change_flag = g.change_flag
    ∧ ((pop g keys fresh).popped.elements ≠ ∅ →
        (pop g keys fresh).popped.change_flag = g.change_flag) := by
  have hpe : (pop g keys fresh).popped.elements = (popLoop keys g.elements).2 := by
    simp only [pop]
    split
    · rfl
    · rfl
  have hpn : (pop g keys fresh).popped.node_id = g.node_id := by
    simp only [pop]
    split
    · rfl
    · rfl
  have hoe : (pop g keys fresh).orig.elements = (popLoop keys g.elements).1 := rfl
  refine ⟨?_, ?_, ?_, hpn, rfl, rfl, ?_⟩
  · rw [hpe, popLoop_snd]
  · rw [hoe, popLoop_fst]
  · rw [hpe, hoe, popLoop_snd, popLoop_fst]
    rw [Finset.disjoint_left]
    intro a ha hb
    exact (Finset.mem_sdiff.mp hb).2 (Finset.mem_inter.mp ha).2
  · intro hne
    rw [hpe] at hne
    simp only [pop]
    rw [if_neg hne]

/-- Witness for C8 (amended): a pop whose moved set is non-empty keeps the
fencing token. -/
theorem pop_moves_intersection_witness :
    (pop ⟨5, {1, 2}, 7, true⟩ [2, 3] 8).popped.change_flag = 7 := by
  have h := (pop_moves_intersection ⟨5, {1, 2}, 7, true⟩ [2, 3] 8).2.2.2.2.2.2
  have hne : (pop ⟨5, {1, 2}, 7, true⟩ [2, 3] 8).popped.elements ≠ ∅ := by decide
  exact h hne
